import Mathlib

/-!
Verification development for the flowshop backend (`backend/main.py`).

The Python source is shallowly embedded:
* floats are modelled by `ℚ` (all arithmetic in the program is addition and
  comparison of request/response numbers, exact in these scenarios);
* Python ints are `Int`;
* fallible code (`next(...)` lookups that can raise `StopIteration`,
  library calls that can raise) is modelled with `Option`/`Except`;
* the process-wide `random` module is modelled by an ambient stream
  `g : ℕ → ℕ` together with a counter; `random.seed(s)` replaces the
  stream by `mtStream s`, a fixed function of the seed standing in for
  the Mersenne Twister (the theorems below depend only on it being a
  function of the seed, never on particular values).
-/

set_option linter.unusedVariables false

attribute [local semireducible] Rat.add Rat.sub Rat.mul Rat.inv Rat.ofScientific

instance {ε α : Type} [DecidableEq ε] [DecidableEq α] : DecidableEq (Except ε α)
  | .error e, .error f =>
    if h : e = f then .isTrue (by rw [h])
    else .isFalse (fun c => h (by injection c))
  | .error _, .ok _ => .isFalse (fun c => Except.noConfusion c)
  | .ok _, .error _ => .isFalse (fun c => Except.noConfusion c)
  | .ok a, .ok b =>
    if h : a = b then .isTrue (by rw [h])
    else .isFalse (fun c => h (by injection c))

/-! ### Data model (`class Job`, `class Instance`, `class TaskLog`, `class ScheduleResult`) -/

structure Job where
  id : Int
  processingTimes : List ℚ
deriving DecidableEq, Repr

structure Instance where
  numJobs : Int
  numStages : Int
  machinesPerStage : List Int
  jobs : List Job
  maxIterations : Int := 100
  randomSeed : Option Int := some 42
  gaPopulationSize : Int := 20
  gaMutationRate : ℚ := 1/5
  gaTournamentSize : Int := 3
  gaElitismCount : Int := 2
deriving DecidableEq, Repr

structure TaskLog where
  jobId : Int
  stageId : ℕ
  machineId : ℕ
  globalMachineId : Int
  startTime : ℚ
  endTime : ℚ
deriving DecidableEq, Repr

structure ScheduleResult where
  makespan : ℚ
  schedule : List TaskLog
  permutation : List Int
deriving DecidableEq, Repr

/-- Validity of an instance, following §3 of the specification: positive
dimensions, per-stage machine counts, jobs matching `numJobs`, processing-time
vectors of length `numStages` with non-negative entries, unique job ids, and
the stated bounds on the search knobs. -/
def validInstance (inst : Instance) : Prop :=
  1 ≤ inst.numJobs ∧ 1 ≤ inst.numStages ∧
  inst.machinesPerStage.length = inst.numStages.toNat ∧
  (∀ c ∈ inst.machinesPerStage, 1 ≤ c) ∧
  inst.jobs.length = inst.numJobs.toNat ∧
  (∀ j ∈ inst.jobs, j.processingTimes.length = inst.numStages.toNat ∧
    ∀ t ∈ j.processingTimes, 0 ≤ t) ∧
  (inst.jobs.map Job.id).Nodup ∧
  1 ≤ inst.maxIterations ∧
  2 ≤ inst.gaPopulationSize ∧
  0 ≤ inst.gaMutationRate ∧ inst.gaMutationRate ≤ 1 ∧
  2 ≤ inst.gaTournamentSize ∧
  0 ≤ inst.gaElitismCount

instance (inst : Instance) : Decidable (validInstance inst) := by
  unfold validInstance; infer_instance

/-! ### SimPy simulator (`run_simpy_simulation`)

The Python function spawns one generator per permutation entry; each
generator walks its job's `processingTimes`, requesting the stage's
`simpy.Resource` (a FIFO queue over `capacity` identical units), holding it
for the processing time, logging a `TaskLog` *after* the hold, releasing the
resource and moving to the next stage.  SimPy executes events in
`(time, insertion-order)` order; we embed this directly with an explicit
event queue whose entries carry a monotone sequence number.  Process startup
is faithful to SimPy: all processes are created at time 0 in permutation
order and issue their stage-0 requests in that order before any of them
proceeds. -/

inductive EvKind where
  | granted (p stage : ℕ)
  | finish (p stage : ℕ) (start : ℚ)
deriving DecidableEq, Repr

structure SimEvent where
  time : ℚ
  seq : ℕ
  kind : EvKind
deriving DecidableEq, Repr

/-- Static simulation context: stage capacities (`machinesPerStage`) and, per
permutation position, the resolved job's id and processing times. -/
structure SimCtx where
  caps : List Int
  procs : List (Int × List ℚ)
deriving DecidableEq, Repr

structure SimState where
  now : ℚ
  seq : ℕ
  queue : List SimEvent
  busy : List ℕ
  waitq : List (List ℕ)
  log : List TaskLog
deriving DecidableEq, Repr

def procJobId (ctx : SimCtx) (p : ℕ) : Int := (ctx.procs.getD p (0, [])).1

def procTimes (ctx : SimCtx) (p : ℕ) : List ℚ := (ctx.procs.getD p (0, [])).2

def procTime (ctx : SimCtx) (p stage : ℕ) : ℚ := (procTimes ctx p).getD stage 0

/-- Event-queue order: earlier time first, ties by insertion order, matching
SimPy's `(time, priority, eid)` heap order (all events here share the same
priority class). -/
def evLe (a b : SimEvent) : Bool := a.time < b.time || (a.time == b.time && a.seq ≤ b.seq)

def scheduleEv (st : SimState) (t : ℚ) (k : EvKind) : SimState :=
  { st with queue := st.queue ++ [⟨t, st.seq, k⟩], seq := st.seq + 1 }

/-- `machine.request()`: if a unit is free the request succeeds at the current
instant (its continuation is scheduled as a fresh event), otherwise the
process is appended to the resource's FIFO queue. -/
def requestMachine (ctx : SimCtx) (st : SimState) (stage p : ℕ) : SimState :=
  let cap := ctx.caps.getD stage 0
  let b := st.busy.getD stage 0
  if (b : Int) < cap then
    scheduleEv { st with busy := st.busy.set stage (b + 1) } st.now (.granted p stage)
  else
    { st with waitq := st.waitq.set stage ((st.waitq.getD stage []) ++ [p]) }

/-- Resource release at `with`-block exit: the oldest queued request (if any)
is granted at the current instant, otherwise a unit becomes free. -/
def releaseMachine (ctx : SimCtx) (st : SimState) (stage : ℕ) : SimState :=
  match st.waitq.getD stage [] with
  | [] => { st with busy := st.busy.set stage ((st.busy.getD stage 0) - 1) }
  | q :: rest => scheduleEv { st with waitq := st.waitq.set stage rest } st.now (.granted q stage)

/-- One TaskLog record, exactly as built in `job_process`: `machine_id = 0`
("Simplified for viz") and `globalMachineId = sum(machinesPerStage[:stage]) + 0`. -/
def mkTaskLog (ctx : SimCtx) (p stage : ℕ) (start finish : ℚ) : TaskLog :=
  { jobId := procJobId ctx p
    stageId := stage
    machineId := 0
    globalMachineId := (ctx.caps.take stage).sum + 0
    startTime := start
    endTime := finish }

/-- Process one popped event.  A `granted` event resumes the process holding
the machine: it records `start_time = env.now` and schedules its timeout.
A `finish` event (the timeout firing) appends the TaskLog, releases the
machine, and issues the request for the next stage, if any. -/
def handleEv (ctx : SimCtx) (st : SimState) (e : SimEvent) : SimState :=
  let st := { st with now := e.time }
  match e.kind with
  | .granted p stage =>
      scheduleEv st (e.time + procTime ctx p stage) (.finish p stage e.time)
  | .finish p stage start =>
      let st := { st with log := st.log ++ [mkTaskLog ctx p stage start e.time] }
      let st := releaseMachine ctx st stage
      if stage + 1 < (procTimes ctx p).length then requestMachine ctx st (stage + 1) p
      else st

/-- Remove a minimal event (by `evLe`) from the queue. -/
def popMin : List SimEvent → Option (SimEvent × List SimEvent)
  | [] => none
  | e :: rest =>
    match popMin rest with
    | none => some (e, [])
    | some (m, r) => if evLe e m then some (e, m :: r) else some (m, e :: r)

def simLoop (ctx : SimCtx) : ℕ → SimState → SimState
  | 0, st => st
  | fuel + 1, st =>
    match popMin st.queue with
    | none => st
    | some (e, rest) => simLoop ctx fuel (handleEv ctx { st with queue := rest } e)

/-- Total number of events any run can process: every stage of every process
contributes one `granted` and one `finish` event. -/
def simFuel (ctx : SimCtx) : ℕ := 2 * (ctx.procs.map (fun pr => pr.2.length)).sum + 1

def initSimState (ctx : SimCtx) : SimState :=
  let st : SimState :=
    { now := 0, seq := 0, queue := []
      busy := List.replicate ctx.caps.length 0
      waitq := List.replicate ctx.caps.length []
      log := [] }
  (List.range ctx.procs.length).foldl
    (fun s p => if 0 < (procTimes ctx p).length then requestMachine ctx s 0 p else s) st

/-- Resolve a job id, `next(j for j in instance.jobs if j.id == job_id)`:
the first job with this id, `none` modelling the `StopIteration` escape. -/
def lookupJob (jobs : List Job) (jobId : Int) : Option Job :=
  jobs.find? (fun j => j.id == jobId)

/-- The SimPy simulator.  It performs no validation of the permutation: every
entry is resolved with `lookupJob` (an unresolvable id raises, modelled as
`.error`), a process is spawned per entry, and the event loop runs to
completion.  The makespan is `env.now` after `env.run()`. -/
def run_simpy_simulation (inst : Instance) (permutation : List Int) :
    Except String ScheduleResult :=
  match permutation.mapM (lookupJob inst.jobs) with
  | none => .error "StopIteration"
  | some js =>
    let ctx : SimCtx := { caps := inst.machinesPerStage
                          procs := js.map (fun j => (j.id, j.processingTimes)) }
    let final := simLoop ctx (simFuel ctx) (initSimState ctx)
    .ok { makespan := final.now, schedule := final.log, permutation := permutation }

/-- `get_makespan`. -/
def get_makespan (inst : Instance) (perm : List Int) : Except String ℚ :=
  (run_simpy_simulation inst perm).map (fun r => r.makespan)

/-! ### Heuristic orderings

Python's `sorted(l, key=k)` is a stable ascending sort; a stable sort by a
total preorder has a unique output, so `List.insertionSort` (stable, by
`List.pair_sublist_insertionSort`) with `key a ≤ key b` is a faithful
embedding (and with `key b ≤ key a` for `reverse=True`, whose documented
behavior is a stable descending sort). -/

def pySortedBy (key : α → ℚ) (l : List α) : List α :=
  l.insertionSort (fun a b => key a ≤ key b)

def pySortedByDesc (key : α → ℚ) (l : List α) : List α :=
  l.insertionSort (fun a b => key b ≤ key a)

def sptKey (j : Job) : ℚ := j.processingTimes.sum

/-- The permutation emitted by `heuristic_spt`:
`[j.id for j in sorted(jobs, key=lambda j: sum(j.processingTimes))]`. -/
def sptPerm (inst : Instance) : List Int :=
  (pySortedBy sptKey inst.jobs).map Job.id

def heuristic_spt (inst : Instance) : Except String ScheduleResult :=
  run_simpy_simulation inst (sptPerm inst)

/-- The permutation emitted by `heuristic_lpt` (same key, `reverse=True`). -/
def lptPerm (inst : Instance) : List Int :=
  (pySortedByDesc sptKey inst.jobs).map Job.id

def heuristic_lpt (inst : Instance) : Except String ScheduleResult :=
  run_simpy_simulation inst (lptPerm inst)

/-- Key `j.processingTimes[0]`; Python raises IndexError on an empty list,
which cannot occur for a valid instance (we default to 0). -/
def firstStageKey (j : Job) : ℚ := j.processingTimes.getD 0 0

def firstStageSptPerm (inst : Instance) : List Int :=
  (pySortedBy firstStageKey inst.jobs).map Job.id

def heuristic_first_stage_spt (inst : Instance) : Except String ScheduleResult :=
  run_simpy_simulation inst (firstStageSptPerm inst)

/-- Key `j.processingTimes[-1]` (Python: the last element; IndexError on an
empty list, impossible for a valid instance). -/
def lastStageKey (j : Job) : ℚ := j.processingTimes.getLastD 0

def lastStageSptPerm (inst : Instance) : List Int :=
  (pySortedBy lastStageKey inst.jobs).map Job.id

def heuristic_last_stage_spt (inst : Instance) : Except String ScheduleResult :=
  run_simpy_simulation inst (lastStageSptPerm inst)

/-- Python `min(l)` for a list of ints (raises on empty; we default to 0,
unreachable for valid instances). -/
def pyListMin : List Int → Int
  | [] => 0
  | c :: rest => rest.foldl min c

/-- `machinesPerStage.index(min(machinesPerStage))`: first index attaining
the minimum. -/
def bottleneckStageIdx (inst : Instance) : ℕ :=
  inst.machinesPerStage.findIdx (fun c => c == pyListMin inst.machinesPerStage)

def bottleneckKey (inst : Instance) (j : Job) : ℚ :=
  j.processingTimes.getD (bottleneckStageIdx inst) 0

def bottleneckPerm (inst : Instance) : List Int :=
  (pySortedBy (bottleneckKey inst) inst.jobs).map Job.id

def heuristic_bottleneck (inst : Instance) : Except String ScheduleResult :=
  run_simpy_simulation inst (bottleneckPerm inst)

/-! ### Random source model

The process-wide `random` module is a stream of naturals `g : ℕ → ℕ` plus a
position counter.  `random.seed(s)` replaces the state by `(mtStream s, 0)`;
when no seed is set the ambient state (OS entropy / prior consumption) is
whatever the caller was given. -/

/-- Modelled from the random library: stand-in for the seeded Mersenne
Twister output stream.  The determinism theorems depend only on this being a
function of the seed, never on particular values. -/
def mtStream (s : Int) (i : ℕ) : ℕ :=
  (s.natAbs + i + 1) * 2654435761 % 4294967296

structure PyRand where
  g : ℕ → ℕ
  k : ℕ

def PyRand.next (r : PyRand) : ℕ × PyRand := (r.g r.k, { r with k := r.k + 1 })

/-- Modelled `random.random()`: a draw in `[0,1)`. -/
def PyRand.nextUnit (r : PyRand) : ℚ × PyRand :=
  let (n, r') := r.next
  (((n % 1000 : ℕ) : ℚ) / 1000, r')

/-- Modelled `randbelow(n)`. -/
def PyRand.below (r : PyRand) (n : ℕ) : ℕ × PyRand :=
  let (v, r') := r.next
  (v % n, r')

/-- `random.seed(randomSeed)` when a seed is present, otherwise the ambient
state is left untouched. -/
def seedPyRand (seed : Option Int) (amb : PyRand) : PyRand :=
  match seed with
  | some s => ⟨mtStream s, 0⟩
  | none => amb

def listSwap (l : List α) (i j : ℕ) : List α :=
  match l.get? i, l.get? j with
  | some a, some b => (l.set i b).set j a
  | _, _ => l

/-- `random.shuffle` (Fisher–Yates): for `i` from `len-1` down to `1`, draw
`j ≤ i` and swap positions `i` and `j`. -/
def pyShuffle (l : List Int) (r : PyRand) : List Int × PyRand :=
  let n := l.length
  (List.range (n - 1)).foldl
    (fun (acc : List Int × PyRand) t =>
      let i := n - 1 - t
      let (j, r') := acc.2.below (i + 1)
      (listSwap acc.1 i j, r'))
    (l, r)

/-- `list(range(k))` as ints. -/
def pyRangeList (k : Int) : List Int :=
  (List.range k.toNat).map (fun n => (n : Int))

/-! ### Random search (`optimize_with_random_search`) -/

/-- The random-search loop.  Faithful to the source: seed if provided, run
`maxIterations` shuffled permutations, keep the strictly best result,
**catch** any simulation error and continue (`except Exception: print; continue`),
and fall back to simulating the identity permutation when no iteration
produced a result. -/
def optimize_with_random_search (inst : Instance)
    (simulation_func : Instance → List Int → Except String ScheduleResult)
    (amb : PyRand) : Except String ScheduleResult :=
  let r0 := seedPyRand inst.randomSeed amb
  let step := fun (acc : Option ScheduleResult × PyRand) (_ : ℕ) =>
    let (perm, r') := pyShuffle (pyRangeList inst.numJobs) acc.2
    match simulation_func inst perm with
    | .ok res =>
      match acc.1 with
      | none => (some res, r')
      | some best =>
        (if res.makespan < best.makespan then some res else some best, r')
    | .error _ => (acc.1, r')
  let fin := (List.range inst.maxIterations.toNat).foldl step (none, r0)
  match fin.1 with
  | some res => .ok res
  | none => simulation_func inst (pyRangeList inst.numJobs)

/-! ### Bayesian optimizers (`optimize_optuna`, `optimize_skopt`) -/

/-- The decode step shared by both Bayesian optimizers:
`job_scores = [(job.id, x[i]) for i, job in enumerate(jobs)]`, then
`job_scores.sort(key=lambda item: item[1])` (stable), then emit the ids. -/
def decodePerm (jobs : List Job) (xs : List ℚ) : List Int :=
  let job_scores := (jobs.zip xs).map (fun jx => (jx.1.id, jx.2))
  (job_scores.insertionSort (fun a b => a.2 ≤ b.2)).map (fun it => it.1)

/-- One trial's coordinate vector `[trial.suggest_float(f'x_{j.id}', 0, 1) for j in jobs]`. -/
def drawCoords (jobs : List Job) (r : PyRand) : List ℚ × PyRand :=
  jobs.foldl
    (fun (acc : List ℚ × PyRand) _ =>
      let (u, r') := acc.2.nextUnit
      (acc.1 ++ [u], r'))
    ([], r)

/-- First trial attaining the minimal objective value (`study.best_trial`
breaks ties by first-seen). -/
def bestTrial : List (List ℚ × ℚ) → Option (List ℚ × ℚ)
  | [] => none
  | t :: ts => some (ts.foldl (fun b t' => if t'.2 < b.2 then t' else b) t)

/-- The Optuna optimizer.  Modelled from the optuna library:
`optuna.create_study(direction='minimize')` constructs a `TPESampler` with
`seed=None`, so `suggest_float` consumes a process-entropy RNG that
`instance.randomSeed` never reaches — the source never passes the seed to
the study.  We model that unseeded source as the ambient stream this
function receives.  Each trial evaluates `get_makespan` on the decoded
permutation (objective errors propagate out of `study.optimize`), and the
best parameters (first trial with minimal value) are re-simulated once. -/
def optimize_optuna (inst : Instance) (amb : PyRand) : Except String ScheduleResult := do
  let n_trials := inst.maxIterations.toNat
  let trials ← (List.range n_trials).foldlM
    (fun (acc : List (List ℚ × ℚ) × PyRand) _ => do
      let (xs, r') := drawCoords inst.jobs acc.2
      let v ← get_makespan inst (decodePerm inst.jobs xs)
      pure (acc.1 ++ [(xs, v)], r'))
    (([], amb))
  match bestTrial trials.1 with
  | none => .error "ValueError: no trials"
  | some best => run_simpy_simulation inst (decodePerm inst.jobs best.1)

/-- Modelled from the skopt library: stand-in for the numpy RandomState
stream seeded with `random_state`. -/
def npStream (s : Int) (i : ℕ) : ℕ :=
  (s.natAbs + i + 7) * 2246822519 % 4294967296

/-- The scikit-optimize optimizer.  Modelled from the skopt library:
`gp_minimize(objective, space, n_calls, random_state)` evaluates the
objective at `n_calls` points whose proposal randomness comes entirely from
an RNG seeded with `random_state` (here `randomSeed`, defaulting to 0), and
`res.x` is the evaluated point with the smallest objective (first on ties).
The Gaussian-process surrogate only influences which points are proposed,
which this model folds into the seeded draws; it consumes no process-wide
`random` state, so the ambient stream is unused. -/
def optimize_skopt (inst : Instance) (amb : PyRand) : Except String ScheduleResult := do
  let n_calls := inst.maxIterations.toNat
  let random_state := inst.randomSeed.getD 0
  let r0 : PyRand := ⟨npStream random_state, 0⟩
  let calls ← (List.range n_calls).foldlM
    (fun (acc : List (List ℚ × ℚ) × PyRand) _ => do
      let (xs, r') := drawCoords inst.jobs acc.2
      let v ← get_makespan inst (decodePerm inst.jobs xs)
      pure (acc.1 ++ [(xs, v)], r'))
    (([], r0))
  match bestTrial calls.1 with
  | none => .error "ValueError: no calls"
  | some best => run_simpy_simulation inst (decodePerm inst.jobs best.1)

/-! ### Genetic algorithm (`optimize_deap`)

Individuals are DEAP `creator.Individual` lists with a cached fitness;
`fit = none` models a deleted/invalid fitness. -/

structure Individual where
  genes : List Int
  fit : Option ℚ
deriving DecidableEq, Repr

/-- DEAP fitness with weight `(-1.0,)` maximizes `-makespan`; every
fitness-maximal choice is therefore makespan-minimal.  DEAP raises when an
invalid fitness is compared; that point is unreachable here and we default
to 0. -/
def fitMakespan (ind : Individual) : ℚ := ind.fit.getD 0

/-- Python slice `l[:k]` for an int `k` (negative counts from the end). -/
def pyTake (l : List α) (k : Int) : List α :=
  if 0 ≤ k then l.take k.toNat else l.take (l.length - (-k).toNat)

/-- Modelled from the deap library: `tools.selBest` is
`sorted(individuals, key=attrgetter("fitness"), reverse=True)[:k]` — a
stable sort, descending in weighted fitness, hence ascending in makespan. -/
def selBest (pop : List Individual) (k : Int) : List Individual :=
  pyTake (pop.insertionSort (fun a b => fitMakespan a ≤ fitMakespan b)) k

/-- Modelled from the random library: `random.sample(pool, k)` as `k`
successive removals at stream-chosen indices (the exact draw pattern of
CPython's reservoir is irrelevant to the theorems; Python raises when
`k > len(pool)`, where this model returns a short list — unreached here). -/
def pySample : ℕ → List Int → PyRand → (List Int × PyRand)
  | 0, _, r => ([], r)
  | _ + 1, [], r => ([], r)
  | k + 1, pool, r =>
    let (j, r') := r.below pool.length
    let v := pool.getD j 0
    let (rest, r'') := pySample k (pool.eraseIdx j) r'
    (v :: rest, r'')

/-- `toolbox.population(n)`: `n` individuals, each
`random.sample(job_ids, len(job_ids))`, with no fitness yet. -/
def gaInitPop (inst : Instance) (r : PyRand) : List Individual × PyRand :=
  let job_ids := inst.jobs.map Job.id
  (List.range inst.gaPopulationSize.toNat).foldl
    (fun (acc : List Individual × PyRand) _ =>
      let (g, r') := pySample job_ids.length job_ids acc.2
      (acc.1 ++ [⟨g, none⟩], r'))
    ([], r)

/-- `ind.fitness.values = toolbox.evaluate(ind)`: one simulation. -/
def evalInd (inst : Instance) (ind : Individual) : Except String Individual :=
  (get_makespan inst ind.genes).map (fun m => { ind with fit := some m })

/-- Modelled from the deap library: `tools.selTournament` runs `k`
tournaments; each draws `tournsize` aspirants by `random.choice` (with
replacement) and keeps the first fitness-maximal aspirant (= first
makespan-minimal). -/
def selTournament (pop : List Individual) (k : ℕ) (tournsize : ℕ) (r : PyRand) :
    List Individual × PyRand :=
  (List.range k).foldl
    (fun (acc : List Individual × PyRand) _ =>
      let drawn := (List.range tournsize).foldl
        (fun (acc2 : List Individual × PyRand) _ =>
          let (j, r2) := acc2.2.below pop.length
          (acc2.1 ++ [pop.getD j ⟨[], none⟩], r2))
        ([], acc.2)
      let winner := match drawn.1 with
        | [] => (⟨[], none⟩ : Individual)
        | a :: rest => rest.foldl (fun w c => if fitMakespan c < fitMakespan w then c else w) a
      (acc.1 ++ [winner], drawn.2))
    ([], r)

/-- Python list indexing `l[v]` for an int `v` of a list of length `n`:
`v` itself when `0 ≤ v < n`, wrap-around for `-n ≤ v < 0`, IndexError
otherwise. -/
def pyIdx (n : ℕ) (v : Int) : Option ℕ :=
  if 0 ≤ v ∧ v < (n : Int) then some v.toNat
  else if -(n : Int) ≤ v ∧ v < 0 then some (n - (-v).toNat) else none

/-- Modelled from the deap library (`tools.cxOrdered`): mark
`holes[other[i]] = False` for every position `i` outside the cut slice
`[a, b]`.  The array is **indexed by gene value** — this is where job ids
that are not positions act as indices. -/
def cxMarkHoles (n a b : ℕ) (other : List Int) : Option (List Bool) :=
  (List.range n).foldlM
    (fun holes i =>
      if i < a ∨ b < i then
        (pyIdx n (other.getD i 0)).map (fun ix => holes.set ix false)
      else some holes)
    (List.replicate n true)

/-- Modelled from the deap library (`tools.cxOrdered`): the gathering loop
reads the original genes cyclically from `b+1` and rewrites the non-hole
values cyclically from `b+1`.  In DEAP the writes go into the aliased list
being read, but the write index never overtakes the read index, so every
read sees the pre-loop value; the model therefore reads from the unchanged
`orig`. -/
def cxGather (n b : ℕ) (orig : List Int) (holes : List Bool) : Option (List Int) :=
  ((List.range n).foldlM
    (fun (acc : List Int × ℕ) i =>
      let v := orig.getD ((i + b + 1) % n) 0
      (pyIdx n v).map (fun ix =>
        if holes.getD ix true = false then (acc.1.set (acc.2 % n) v, acc.2 + 1)
        else acc))
    (orig, b + 1)).map (fun acc => acc.1)

/-- Modelled from the deap library: `tools.cxOrdered(ind1, ind2)`.  Cut
points are `random.sample(range(size), 2)` sorted (raising when `size < 2`);
after the gathering pass the slice `[a, b]` is exchanged between the two
lists.  `none` models the IndexError raised when a gene value is out of
Python's indexable range `[-size, size)`. -/
def cxOrdered (ind1 ind2 : List Int) (r : PyRand) :
    Option ((List Int × List Int) × PyRand) :=
  let size := min ind1.length ind2.length
  if size < 2 then none
  else
    let (ab, r') := pySample 2 (pyRangeList (size : Int)) r
    let a0 := (ab.getD 0 0).toNat
    let b0 := (ab.getD 1 0).toNat
    let a := min a0 b0
    let b := max a0 b0
    match cxMarkHoles size a b ind2, cxMarkHoles size a b ind1 with
    | some holes1, some holes2 =>
      match cxGather size b ind1 holes1, cxGather size b ind2 holes2 with
      | some g1, some g2 =>
        let child1 := (List.range size).map
          (fun i => if a ≤ i ∧ i ≤ b then g2.getD i 0 else g1.getD i 0)
        let child2 := (List.range size).map
          (fun i => if a ≤ i ∧ i ≤ b then g1.getD i 0 else g2.getD i 0)
        some ((child1, child2), r')
      | _, _ => none
    | _, _ => none

/-- Modelled from the deap library: `tools.mutShuffleIndexes(ind, indpb)`.
Per position, with probability `indpb`, swap with a uniformly chosen other
position (`randint(0, size-2)` shifted past `i`); `none` models the
ValueError raised when `size < 2` and a swap fires. -/
def mutShuffleIndexes (genes : List Int) (indpb : ℚ) (r : PyRand) :
    Option (List Int × PyRand) :=
  (List.range genes.length).foldlM
    (fun (acc : List Int × PyRand) i =>
      let (u, r') := acc.2.nextUnit
      if u < indpb then
        if genes.length < 2 then none
        else
          let (j0, r'') := r'.below (genes.length - 1)
          let j := if i ≤ j0 then j0 + 1 else j0
          some (listSwap acc.1 i j, r'')
      else some (acc.1, r'))
    (genes, r)

/-- The crossover pass `for i in range(1, len(offspring), 2)`: adjacent
disjoint pairs, each crossed with probability `0.9`, children losing their
fitness. -/
def gaCrossover (offspring : List Individual) (r : PyRand) :
    Option (List Individual × PyRand) :=
  match offspring with
  | o1 :: o2 :: rest =>
    let (u, r') := r.nextUnit
    if u < 9/10 then
      match cxOrdered o1.genes o2.genes r' with
      | none => none
      | some ((c1, c2), r'') =>
        (gaCrossover rest r'').map
          (fun tl => (⟨c1, none⟩ :: ⟨c2, none⟩ :: tl.1, tl.2))
    else
      (gaCrossover rest r').map (fun tl => (o1 :: o2 :: tl.1, tl.2))
  | l => some (l, r)

/-- The mutation pass: each offspring mutated with probability
`gaMutationRate`, mutants losing their fitness. -/
def gaMutation (offspring : List Individual) (mutRate indpb : ℚ) (r : PyRand) :
    Option (List Individual × PyRand) :=
  match offspring with
  | [] => some ([], r)
  | o :: rest =>
    let (u, r') := r.nextUnit
    if u < mutRate then
      match mutShuffleIndexes o.genes indpb r' with
      | none => none
      | some (g, r'') =>
        (gaMutation rest mutRate indpb r'').map (fun tl => (⟨g, none⟩ :: tl.1, tl.2))
    else
      (gaMutation rest mutRate indpb r').map (fun tl => (o :: tl.1, tl.2))

/-- One GA generation, exactly the loop body of `optimize_deap`: elitism,
tournament selection of `len(pop) − gaElitismCount` parents, paired ordered
crossover (rate 0.9), shuffle mutation (rate `gaMutationRate`, `indpb` 0.05),
re-evaluation of invalidated offspring, replacement `elites + offspring`. -/
def gaGeneration (inst : Instance) (pop : List Individual) (r : PyRand) :
    Except String (List Individual × PyRand) :=
  let elites := selBest pop inst.gaElitismCount
  let offCount := ((pop.length : Int) - inst.gaElitismCount).toNat
  let sel := selTournament pop offCount inst.gaTournamentSize.toNat r
  match gaCrossover sel.1 sel.2 with
  | none => .error "IndexError in cxOrdered"
  | some (offX, r2) =>
    match gaMutation offX inst.gaMutationRate (1/20) r2 with
    | none => .error "ValueError in mutShuffleIndexes"
    | some (offM, r3) => do
      let evaluated ← offM.mapM
        (fun ind => if ind.fit.isNone then evalInd inst ind else pure ind)
      pure (elites ++ evaluated, r3)

/-- The DEAP GA.  Seed if provided, build and evaluate the initial
population, run `maxIterations` generations, then simulate the best
individual of the final population once (`selBest(pop, 1)[0]`). -/
def optimize_deap (inst : Instance) (amb : PyRand) : Except String ScheduleResult := do
  let r0 := seedPyRand inst.randomSeed amb
  let init := gaInitPop inst r0
  let pop0 ← init.1.mapM (evalInd inst)
  let fin ← (List.range inst.maxIterations.toNat).foldlM
    (fun (acc : List Individual × PyRand) _ => gaGeneration inst acc.1 acc.2)
    (pop0, init.2)
  match selBest fin.1 1 with
  | [] => .error "IndexError: empty population"
  | best :: _ => run_simpy_simulation inst best.genes

/-! ### Mesa tick simulator (`FlowShopModel`, `run_mesa_simulation`)

A unit-tick simulation: per tick each agent (in permutation order) advances
its processing countdown and, when waiting, grabs the first machine of its
stage whose `busy_until` is ≤ the current time. -/

inductive MesaStatus where
  | waiting | processing | done
deriving DecidableEq, Repr

structure JobAgent where
  unique_id : ℕ
  jobId : Int
  pts : List ℚ
  current_stage : ℕ
  remaining_time : ℚ
  status : MesaStatus
  machine_assigned : Int
deriving DecidableEq, Repr

structure MesaModel where
  agents_list : List JobAgent
  machines_busy_until : List (List ℚ)
  task_log : List TaskLog
  current_time : ℚ
deriving DecidableEq, Repr

/-- `FlowShopModel.step`: one tick.  Agents are visited in the order added
(permutation order); a processing agent counts down and, on reaching 0,
advances a stage and becomes waiting (or done); a waiting agent scans its
stage's machines in index order for one free now, reserves it to
`current_time + proc_time`, and logs the task.  Finally the clock advances
by one. -/
def mesaStep (inst : Instance) (m : MesaModel) : MesaModel :=
  let t := m.current_time
  let fin := m.agents_list.foldl
    (fun (acc : List JobAgent × List (List ℚ) × List TaskLog) agent =>
      if agent.status = .done then (acc.1 ++ [agent], acc.2.1, acc.2.2)
      else
        let agent :=
          if agent.status = .processing then
            let rem := agent.remaining_time - 1
            if rem ≤ 0 then
              let stg : ℕ := agent.current_stage + 1
              let a := { agent with
                         remaining_time := rem
                         current_stage := stg
                         status := .waiting
                         machine_assigned := -1 }
              if (stg : Int) ≥ inst.numStages then { a with status := .done } else a
            else { agent with remaining_time := rem }
          else agent
        if agent.status = .waiting then
          let stage : ℕ := agent.current_stage
          if (stage : Int) ≥ inst.numStages then
            (acc.1 ++ [{ agent with status := .done }], acc.2.1, acc.2.2)
          else
            let proc_time := agent.pts.getD stage 0
            let cap := inst.machinesPerStage.getD stage 0
            let busyRow := acc.2.1.getD stage []
            match (List.range cap.toNat).find? (fun midx => decide (busyRow.getD midx 0 ≤ t)) with
            | none => (acc.1 ++ [agent], acc.2.1, acc.2.2)
            | some best =>
              let agent := { agent with
                             status := .processing
                             remaining_time := proc_time
                             machine_assigned := (best : Int) }
              let busy' := acc.2.1.set stage (busyRow.set best (t + proc_time))
              let lg : TaskLog :=
                { jobId := agent.jobId
                  stageId := stage
                  machineId := best
                  globalMachineId := (inst.machinesPerStage.take stage).sum + best
                  startTime := t
                  endTime := t + proc_time }
              (acc.1 ++ [agent], busy', acc.2.2 ++ [lg])
        else (acc.1 ++ [agent], acc.2.1, acc.2.2))
    ([], m.machines_busy_until, m.task_log)
  { agents_list := fin.1
    machines_busy_until := fin.2.1
    task_log := fin.2.2
    current_time := t + 1 }

/-- `FlowShopModel.__init__`: one agent per permutation entry (the id lookup
can raise `StopIteration`), all machines free at time 0. -/
def mesaInit (inst : Instance) (permutation : List Int) : Except String MesaModel :=
  match permutation.mapM (lookupJob inst.jobs) with
  | none => .error "StopIteration"
  | some js =>
    .ok { agents_list := js.mapIdx (fun i j => ⟨i, j.id, j.processingTimes, 0, 0, .waiting, -1⟩)
          machines_busy_until := inst.machinesPerStage.map (fun c => List.replicate c.toNat 0)
          task_log := []
          current_time := 0 }

/-- The driving loop of `run_mesa_simulation`:
`while any(a.status != "done"): step(); steps += 1; if steps > 100000: break`.
The fuel argument is kept equal to `100001 − steps`, so the structural
recursion never exhausts it before the safety break fires; the returned pair
carries the final model and the number of `step()` calls performed. -/
def mesaLoop (inst : Instance) : ℕ → MesaModel → ℕ → MesaModel × ℕ
  | 0, m, steps => (m, steps)
  | fuel + 1, m, steps =>
    if m.agents_list.all (fun a => a.status = .done) then (m, steps)
    else
      let m' := mesaStep inst m
      let steps' := steps + 1
      if steps' > 100000 then (m', steps') else mesaLoop inst fuel m' steps'

def run_mesa_simulation (inst : Instance) (permutation : List Int) :
    Except String ScheduleResult :=
  (mesaInit inst permutation).map (fun m0 =>
    let fin := mesaLoop inst 100001 m0 0
    { makespan := fin.1.current_time
      schedule := fin.1.task_log
      permutation := permutation })

/-! ### Concrete scenario instances and extraction helpers -/

def defaultTaskLog : TaskLog := ⟨0, 0, 0, 0, 0, 0⟩

/-- Schedule of a simulation outcome (empty on error), for closed concrete
statements. -/
def resultSchedule (e : Except String ScheduleResult) : List TaskLog :=
  match e with
  | .ok r => r.schedule
  | .error _ => []

/-- Scenario S2: two stages of one machine each, job A (id 0) `[4,1]`,
job B (id 1) `[1,4]`. -/
def S2I : Instance :=
  { numJobs := 2, numStages := 2, machinesPerStage := [1, 1]
    jobs := [⟨0, [4, 1]⟩, ⟨1, [1, 4]⟩] }

/-- Two ordinary jobs, used to show the simulator accepts non-bijections. -/
def TJI : Instance :=
  { numJobs := 2, numStages := 1, machinesPerStage := [1]
    jobs := [⟨0, [2]⟩, ⟨1, [3]⟩] }

/-- Two jobs with equal total processing time whose ids are *not* in list
order: ids `[5, 3]`. -/
def C4I : Instance :=
  { numJobs := 2, numStages := 1, machinesPerStage := [1]
    jobs := [⟨5, [2]⟩, ⟨3, [2]⟩] }

/-- Jobs listed with ids in order `[2, 0, 1]` (scenario S6). -/
def J201 : List Job := [⟨2, [1]⟩, ⟨0, [1]⟩, ⟨1, [1]⟩]

/-- Scenario S3: one stage with two machines, three jobs of length 5. -/
def S3I : Instance :=
  { numJobs := 3, numStages := 1, machinesPerStage := [2]
    jobs := [⟨0, [5]⟩, ⟨1, [5]⟩, ⟨2, [5]⟩] }

/-- One stage with two machines, processing times 10, 2, 3: the job started
last finishes in the middle, so completion order differs from start order. -/
def OvI : Instance :=
  { numJobs := 3, numStages := 1, machinesPerStage := [2]
    jobs := [⟨0, [10]⟩, ⟨1, [2]⟩, ⟨2, [3]⟩] }

/-- A valid instance whose job ids `[2, 1, -1]` are unique ints but not the
positions `0..numJobs-1`; `randomSeed = none`, population 2, no elitism,
one generation. -/
def CnegI : Instance :=
  { numJobs := 3, numStages := 1, machinesPerStage := [1]
    jobs := [⟨2, [5]⟩, ⟨1, [1]⟩, ⟨-1, [1]⟩]
    maxIterations := 1, randomSeed := none, gaPopulationSize := 2
    gaMutationRate := 1/5, gaTournamentSize := 2, gaElitismCount := 0 }

/-- An ambient random stream driving `CnegI`'s GA run into a crossover of
the two initial individuals with cut points (0, 1) and no mutation. -/
def gNeg : PyRand :=
  ⟨fun n => [0, 0, 0, 2, 1, 0, 0, 0, 1, 1, 0, 0, 0, 999, 999].getD n 0, 0⟩

/-- The population at the first generation boundary of `optimize_deap` on
`CnegI`: replays exactly the steps of `optimize_deap` (initial population,
initial evaluation, one `gaGeneration`) and returns the population after
the generation. -/
def c9FirstBoundary : Except String (List Individual) :=
  let init := gaInitPop CnegI gNeg
  match init.1.mapM (evalInd CnegI) with
  | .error e => Except.error e
  | .ok pop0 => (gaGeneration CnegI pop0 init.2).map (fun pr => pr.1)

/-- Copy of `CnegI` for the returned-result claim. -/
def CnegC2I : Instance :=
  { numJobs := 3, numStages := 1, machinesPerStage := [1]
    jobs := [⟨2, [5]⟩, ⟨1, [1]⟩, ⟨-1, [1]⟩]
    maxIterations := 1, randomSeed := none, gaPopulationSize := 2
    gaMutationRate := 1/5, gaTournamentSize := 2, gaElitismCount := 0 }

/-- Copy of `gNeg` for the returned-result claim. -/
def gNegC2 : PyRand :=
  ⟨fun n => [0, 0, 0, 2, 1, 0, 0, 0, 1, 1, 0, 0, 0, 999, 999].getD n 0, 0⟩

/-- An instance whose job ids `[0, 2]` are not `range(numJobs)`: every
shuffled permutation of `range(2)` contains the id 1 and fails its lookup. -/
def BadIdsI : Instance :=
  { numJobs := 2, numStages := 1, machinesPerStage := [1]
    jobs := [⟨0, [1]⟩, ⟨2, [2]⟩], maxIterations := 2 }

/-- An arbitrary ambient stream (never consumed when a seed is set). -/
def gE : PyRand := ⟨fun _ => 0, 0⟩

/-- A tiny valid instance with one job, used by several witnesses. -/
def WTiny : Instance :=
  { numJobs := 1, numStages := 1, machinesPerStage := [1]
    jobs := [⟨0, [1]⟩], maxIterations := 1 }

/-- The simulation outcome on `WTiny` with the identity permutation. -/
def RTiny : ScheduleResult := ⟨1, [⟨0, 0, 0, 0, 0, 1⟩], [0]⟩

/-- A seeded instance for the determinism witness. -/
def C7W : Instance :=
  { numJobs := 1, numStages := 1, machinesPerStage := [1]
    jobs := [⟨0, [1]⟩], maxIterations := 1 }

def gA : PyRand := ⟨fun _ => 0, 0⟩

def gB : PyRand := ⟨fun n => n + 17, 5⟩

/-- A seeded two-job instance for the Optuna determinism counterexample. -/
def OptI : Instance :=
  { numJobs := 2, numStages := 1, machinesPerStage := [1]
    jobs := [⟨0, [1]⟩, ⟨1, [2]⟩], maxIterations := 1, randomSeed := some 42 }

def gC : PyRand := ⟨fun _ => 0, 0⟩

def gD : PyRand := ⟨fun k => if k = 0 then 500 else 0, 0⟩

/-- An instance whose single stage has zero machines: no agent can ever
start, so the Mesa loop only stops at its safety break. -/
def MStuckI : Instance :=
  { numJobs := 1, numStages := 1, machinesPerStage := [0], jobs := [⟨0, [5]⟩] }

/-- The (forever-waiting) agent of `MStuckI`. -/
def stuckAgent : JobAgent := ⟨0, 0, [5], 0, 0, .waiting, -1⟩

/-- A two-job instance with equal keys for every heuristic, ids `[1, 4]`
listed in ascending order. -/
def C4W : Instance :=
  { numJobs := 2, numStages := 2, machinesPerStage := [1, 1]
    jobs := [⟨1, [2, 3]⟩, ⟨4, [2, 3]⟩] }

/-- The common simulation outcome of all five heuristics on `C4W`. -/
def C4WRes : ScheduleResult :=
  ⟨8, [⟨1, 0, 0, 0, 0, 2⟩, ⟨4, 0, 0, 0, 2, 4⟩, ⟨1, 1, 0, 1, 2, 5⟩, ⟨4, 1, 0, 1, 5, 8⟩], [1, 4]⟩

/-- Log predicate for the hard-coded machine ids: every TaskLog carries
`machineId = 0` and the stage's global offset. -/
def logMach (ctx : SimCtx) (l : TaskLog) : Prop :=
  l.machineId = 0 ∧ l.globalMachineId = (ctx.caps.take l.stageId).sum

/-- The inductive invariant of the event loop: pending events never lie in
the past, and the log is sorted by (and bounded by the clock in) `endTime`. -/
structure SimInv (ctx : SimCtx) (st : SimState) : Prop where
  qtimes : ∀ e ∈ st.queue, st.now ≤ e.time
  logSorted : List.Pairwise (fun x y => x ≤ y) (st.log.map TaskLog.endTime)
  logLe : ∀ l ∈ st.log, l.endTime ≤ st.now
  logM : ∀ l ∈ st.log, logMach ctx l

/-- An instance violating several §3 invariants: `numJobs` and
`machinesPerStage`/processing-time lengths disagree with the declared
dimensions. -/
def InvalidI : Instance :=
  { numJobs := 5, numStages := 2, machinesPerStage := [1], jobs := [⟨0, [3]⟩] }

/-! ### C1 -/

/-- C1: for the two-stage, one-machine-per-stage instance with jobs
A = [4,1] and B = [1,4], the simulator returns makespan 9 for permutation
[A, B] and makespan 6 for [B, A]. -/
theorem simpy_s2_classic_makespans :
    validInstance S2I ∧
    (run_simpy_simulation S2I [0, 1]).toOption.map (fun r => r.makespan) = some 9 ∧
    (run_simpy_simulation S2I [1, 0]).toOption.map (fun r => r.makespan) = some 6 := by
  decide

/-! ### C3: counterexample -/

/-- C3 counterexample: `[0, 0]` is not a bijection onto the job ids of the
valid instance `TJI`, yet the simulator returns a result instead of an
`InvalidPermutation` error — it performs no permutation validation. -/
theorem simpy_accepts_non_bijection :
    validInstance TJI ∧
    ¬ List.Perm ([0, 0] : List Int) (TJI.jobs.map Job.id) ∧
    (run_simpy_simulation TJI [0, 0]).toOption.isSome = true := by
  decide

/-! ### C4: counterexample -/

/-- C4 counterexample: in `C4I` the two jobs have equal SPT key but ids
`[5, 3]`; the emitted permutation is `[5, 3]`, so the job with the smaller
id appears *later* — ties break by list position, not by ascending id. -/
theorem heuristic_tie_breaks_by_position :
    validInstance C4I ∧
    sptKey (C4I.jobs.getD 0 ⟨0, []⟩) = sptKey (C4I.jobs.getD 1 ⟨0, []⟩) ∧
    (heuristic_spt C4I).toOption.map (fun r => r.permutation) = some [5, 3] := by
  decide

/-! ### C5: counterexample -/

/-- C5 counterexample: for `x = [0.5, 0.5, 0.5]` and job ids listed in
order `[2, 0, 1]`, the decode step returns `[2, 0, 1]` (stable sort keeps
list order on ties), not the claimed `[0, 1, 2]`. -/
theorem bayes_decode_tie_keeps_list_order :
    decodePerm J201 [1/2, 1/2, 1/2] = [2, 0, 1] ∧
    decodePerm J201 [1/2, 1/2, 1/2] ≠ [0, 1, 2] := by
  decide

/-! ### C6: counterexample -/

/-- C6 counterexample: in scenario S3 the first two TaskLogs carry the same
`stageId` and the same `machineId` (both 0 — the simulator hard-codes
`machine_id = 0`) with overlapping `[start, end)` intervals, and the second
job is not logged on machine 1. -/
theorem simpy_same_machine_overlap :
    validInstance S3I ∧
    ((resultSchedule (run_simpy_simulation S3I [0, 1, 2])).getD 0 defaultTaskLog).stageId
      = ((resultSchedule (run_simpy_simulation S3I [0, 1, 2])).getD 1 defaultTaskLog).stageId ∧
    ((resultSchedule (run_simpy_simulation S3I [0, 1, 2])).getD 0 defaultTaskLog).machineId
      = ((resultSchedule (run_simpy_simulation S3I [0, 1, 2])).getD 1 defaultTaskLog).machineId ∧
    ((resultSchedule (run_simpy_simulation S3I [0, 1, 2])).getD 0 defaultTaskLog).startTime
      < ((resultSchedule (run_simpy_simulation S3I [0, 1, 2])).getD 1 defaultTaskLog).endTime ∧
    ((resultSchedule (run_simpy_simulation S3I [0, 1, 2])).getD 1 defaultTaskLog).startTime
      < ((resultSchedule (run_simpy_simulation S3I [0, 1, 2])).getD 0 defaultTaskLog).endTime ∧
    ((resultSchedule (run_simpy_simulation S3I [0, 1, 2])).getD 1 defaultTaskLog).machineId ≠ 1 := by
  decide

/-! ### C8: counterexample -/

/-- C8 counterexample: with two parallel machines and processing times
`[10, 2, 3]`, the TaskLogs are emitted in completion order with start times
`[0, 2, 0]` — not in non-decreasing `startTime` order. -/
theorem tasklog_start_order_violated :
    validInstance OvI ∧
    (resultSchedule (run_simpy_simulation OvI [0, 1, 2])).map TaskLog.startTime = [0, 2, 0] ∧
    ¬ List.Pairwise (· ≤ ·)
        ((resultSchedule (run_simpy_simulation OvI [0, 1, 2])).map TaskLog.startTime) := by
  decide

/-! ### C9 (code bug): crossover corrupts individuals when ids are not positions -/

/-- C9: on the valid instance `CnegI` (job ids `[2, 1, -1]`), the initial
population consists of bijections onto the job ids, but after one
`gaGeneration` — exactly the generation loop of `optimize_deap` — the
population at the generation boundary contains `[-1, 1, -1]`, which is not
a bijection onto the job ids (DEAP's `cxOrdered` indexes its hole arrays by
gene *value*, so ids that are not the positions `0..numJobs-1` corrupt the
children).  The population-size half of the invariant does hold here. -/
theorem ga_boundary_contains_non_bijection :
    validInstance CnegI ∧
    (gaInitPop CnegI gNeg).1.map Individual.genes = [[2, 1, -1], [-1, 1, 2]] ∧
    List.Perm ([2, 1, -1] : List Int) (CnegI.jobs.map Job.id) ∧
    List.Perm ([-1, 1, 2] : List Int) (CnegI.jobs.map Job.id) ∧
    c9FirstBoundary = .ok [⟨[-1, 1, -1], some 3⟩, ⟨[2, 1, 2], some 11⟩] ∧
    ([⟨[-1, 1, -1], some 3⟩, ⟨[2, 1, 2], some 11⟩] : List Individual).length
      = CnegI.gaPopulationSize.toNat ∧
    ¬ List.Perm ([-1, 1, -1] : List Int) (CnegI.jobs.map Job.id) := by
  decide

/-! ### C2 (code bug): the GA can return a non-bijection permutation -/

/-- C2: on the valid instance `CnegC2I` the full GA (`optimize_deap`)
returns a `ScheduleResult` whose `permutation` is `[-1, 1, -1]` — not a
bijection onto the instance's job ids.  The other optimizers do emit
bijections; the GA breaks the contract because DEAP's `cxOrdered` treats
gene values as list indices. -/
theorem deap_returns_non_bijection_permutation :
    validInstance CnegC2I ∧
    (optimize_deap CnegC2I gNegC2).toOption.map (fun r => r.permutation) = some [-1, 1, -1] ∧
    ¬ List.Perm ([-1, 1, -1] : List Int) (CnegC2I.jobs.map Job.id) := by
  decide

/-- C7 amended: with a fixed `randomSeed`, Random search, the GA, and the
scikit-optimize Bayesian optimizer do not depend on the ambient random
state: two runs return identical results. -/
theorem seeded_optimizers_deterministic :
    ∀ (inst : Instance) (s : Int)
      (simFn : Instance → List Int → Except String ScheduleResult)
      (amb amb' : PyRand),
    inst.randomSeed = some s →
    optimize_with_random_search inst simFn amb = optimize_with_random_search inst simFn amb' ∧
    optimize_deap inst amb = optimize_deap inst amb' ∧
    optimize_skopt inst amb = optimize_skopt inst amb' := by
  intro inst s simFn amb amb' h
  refine ⟨?_, ?_, ?_⟩
  · simp only [optimize_with_random_search, seedPyRand, h]
  · simp only [optimize_deap, seedPyRand, h]
  · simp only [optimize_skopt]

theorem seeded_optimizers_deterministic_witness :
    C7W.randomSeed = some 42 ∧
    (optimize_with_random_search C7W run_simpy_simulation gA
       = optimize_with_random_search C7W run_simpy_simulation gB ∧
     optimize_deap C7W gA = optimize_deap C7W gB ∧
     optimize_skopt C7W gA = optimize_skopt C7W gB) :=
  ⟨rfl, seeded_optimizers_deterministic C7W 42 run_simpy_simulation gA gB rfl⟩

/-- C7 counterexample: with `randomSeed = 42` fixed, two Optuna runs under
different ambient entropy return different results. -/
theorem optuna_not_seed_deterministic :
    validInstance OptI ∧ OptI.randomSeed = some 42 ∧
    (optimize_optuna OptI gC).toOption.map (fun r => r.permutation) = some [0, 1] ∧
    (optimize_optuna OptI gD).toOption.map (fun r => r.permutation) = some [1, 0] ∧
    optimize_optuna OptI gC ≠ optimize_optuna OptI gD := by
  decide

/-- A tick of the stuck instance only advances the clock. -/
theorem mesaStep_stuck (t : ℚ) (lg : List TaskLog) :
    mesaStep MStuckI ⟨[stuckAgent], [[]], lg, t⟩ = ⟨[stuckAgent], [[]], lg, t + 1⟩ := rfl

/-- The stuck loop runs until the safety break: exactly `fuel` further
ticks happen and the final count is 100001. -/
theorem mesaLoop_stuck : ∀ (fuel steps : ℕ) (t : ℚ) (lg : List TaskLog),
    1 ≤ fuel → steps + fuel = 100001 →
    mesaLoop MStuckI fuel ⟨[stuckAgent], [[]], lg, t⟩ steps
      = (⟨[stuckAgent], [[]], lg, t + (fuel : ℚ)⟩, 100001) := by
  intro fuel
  induction fuel with
  | zero => intro steps t lg h1 h2; omega
  | succ f ih =>
    intro steps t lg h1 h2
    by_cases hf : f = 0
    · subst hf
      have hs : steps = 100000 := by omega
      subst hs
      show mesaLoop MStuckI 1 _ 100000 = _
      rw [mesaLoop]
      rw [if_neg (by simp [stuckAgent])]
      rw [mesaStep_stuck]
      norm_num
    · rw [mesaLoop]
      rw [if_neg (by simp [stuckAgent])]
      rw [mesaStep_stuck]
      rw [if_neg (by omega)]
      rw [ih (steps + 1) (t + 1) lg (by omega) (by omega)]
      have : t + 1 + (f : ℚ) = t + ((f : ℕ) + 1 : ℕ) := by push_cast; ring
      rw [this]

/-- C10 counterexample: on the zero-machine instance the loop performs
100001 `step()` calls — more than the claimed 100000 — before the safety
break fires. -/
theorem mesa_loop_exceeds_claimed_step_bound :
    mesaInit MStuckI [0] = .ok ⟨[stuckAgent], [[]], [], 0⟩ ∧
    (mesaLoop MStuckI 100001 ⟨[stuckAgent], [[]], [], 0⟩ 0).2 = 100001 ∧
    100000 < (mesaLoop MStuckI 100001 ⟨[stuckAgent], [[]], [], 0⟩ 0).2 := by
  refine ⟨by decide, ?_, ?_⟩
  · rw [mesaLoop_stuck 100001 0 0 [] (by omega) (by omega)]
  · rw [mesaLoop_stuck 100001 0 0 [] (by omega) (by omega)]
    norm_num

/-- C10 amended: the loop performs at most 100001 step calls; a result is
returned whenever the model construction succeeds; on the stuck instance the
schedule is empty (fewer than numJobs × numStages logs) with an agent not
done. -/
theorem mesa_terminates_with_step_bound :
    (∀ (inst : Instance) (fuel : ℕ) (m : MesaModel) (steps : ℕ),
      (mesaLoop inst fuel m steps).2 ≤ steps + fuel) ∧
    (∀ (inst : Instance) (perm : List Int),
      (run_mesa_simulation inst perm).toOption.isSome
        = (mesaInit inst perm).toOption.isSome) ∧
    run_mesa_simulation MStuckI [0] = .ok ⟨100001, [], [0]⟩ ∧
    ((0:ℕ) < (MStuckI.numJobs * MStuckI.numStages).toNat) ∧
    (mesaLoop MStuckI 100001 ⟨[stuckAgent], [[]], [], 0⟩ 0).1.agents_list.all
      (fun a => a.status = .done) = false := by
  refine ⟨?_, ?_, ?_, by decide, ?_⟩
  · intro inst fuel
    induction fuel with
    | zero => intro m steps; simp [mesaLoop]
    | succ f ih =>
      intro m steps
      rw [mesaLoop]
      split
      · omega
      · dsimp only
        split
        · omega
        · have := ih (mesaStep inst m) (steps + 1)
          omega
  · intro inst perm
    unfold run_mesa_simulation
    cases mesaInit inst perm <;> simp [Except.map, Except.toOption]
  · unfold run_mesa_simulation
    rw [show mesaInit MStuckI [0] = .ok ⟨[stuckAgent], [[]], [], 0⟩ from by decide]
    simp only [Except.map]
    rw [mesaLoop_stuck 100001 0 0 [] (by omega) (by omega)]
    norm_num
  · rw [mesaLoop_stuck 100001 0 0 [] (by omega) (by omega)]
    simp [stuckAgent]

theorem evLe_time {a b : SimEvent} (h : evLe a b = true) : a.time ≤ b.time := by
  simp only [evLe, Bool.or_eq_true, Bool.and_eq_true, beq_iff_eq, decide_eq_true_eq] at h
  rcases h with h1 | ⟨h2, -⟩
  · exact le_of_lt h1
  · exact le_of_eq h2

theorem evLe_total (a b : SimEvent) : evLe a b = true ∨ evLe b a = true := by
  unfold evLe
  rcases lt_trichotomy a.time b.time with h | h | h
  · left; simp [h]
  · rcases Nat.le_total a.seq b.seq with hs | hs
    · left; simp [h, hs]
    · right; simp [h, hs]
  · right; simp [h]

theorem evLe_trans {a b c : SimEvent} (h1 : evLe a b = true) (h2 : evLe b c = true) :
    evLe a c = true := by
  unfold evLe at h1 h2 ⊢
  simp only [Bool.or_eq_true, Bool.and_eq_true, beq_iff_eq, decide_eq_true_eq] at h1 h2 ⊢
  rcases h1 with h1 | ⟨h1, h1'⟩ <;> rcases h2 with h2 | ⟨h2, h2'⟩
  · exact Or.inl (lt_trans h1 h2)
  · exact Or.inl (h2 ▸ h1)
  · exact Or.inl (h1 ▸ h2)
  · exact Or.inr ⟨h1.trans h2, le_trans h1' h2'⟩

theorem popMin_eq_none {q : List SimEvent} : popMin q = none ↔ q = [] := by
  cases q with
  | nil => simp [popMin]
  | cons e rest =>
    simp only [popMin]
    constructor
    · intro h
      cases hr : popMin rest with
      | none => rw [hr] at h; cases h
      | some pr => rw [hr] at h; rcases pr with ⟨m, r⟩; dsimp at h; split at h <;> cases h
    · intro h; cases h

theorem popMin_perm : ∀ {q : List SimEvent} {e : SimEvent} {rest : List SimEvent},
    popMin q = some (e, rest) → List.Perm q (e :: rest)
  | [], e, rest => by intro h; cases h
  | x :: r, e, rest => by
    intro h
    simp only [popMin] at h
    cases hr : popMin r with
    | none =>
      rw [hr] at h
      cases h
      rw [popMin_eq_none.mp hr]
    | some pr =>
      rcases pr with ⟨m, rr⟩
      rw [hr] at h
      dsimp at h
      have ih := popMin_perm hr
      split at h
      · cases h
        exact (ih.cons x)
      · cases h
        exact (ih.cons x).trans (List.Perm.swap e x rr)

theorem popMin_min : ∀ {q : List SimEvent} {e : SimEvent} {rest : List SimEvent},
    popMin q = some (e, rest) → ∀ x ∈ rest, evLe e x = true
  | [], e, rest => by intro h; cases h
  | y :: r, e, rest => by
    intro h x hx
    simp only [popMin] at h
    cases hr : popMin r with
    | none =>
      rw [hr] at h
      cases h
      cases hx
    | some pr =>
      rcases pr with ⟨m, rr⟩
      rw [hr] at h
      dsimp at h
      have ih := popMin_min hr
      split at h
      case isTrue hle =>
        cases h
        rcases List.mem_cons.mp hx with rfl | hx'
        · exact hle
        · exact evLe_trans hle (ih x hx')
      case isFalse hle =>
        cases h
        rcases List.mem_cons.mp hx with rfl | hx'
        · rcases evLe_total e x with hh | hh
          · exact hh
          · exact absurd hh hle
        · exact ih x hx'

theorem getD_mem_or_default (l : List α) (n : ℕ) (d : α) :
    l.getD n d ∈ l ∨ l.getD n d = d := by
  rw [List.getD_eq_getElem?_getD]
  cases h : l[n]? with
  | none => right; rfl
  | some a =>
    left
    have := List.getElem?_eq_some.mp h
    rcases this with ⟨hn, rfl⟩
    exact List.getElem_mem hn

theorem procTime_nonneg {ctx : SimCtx}
    (hn : ∀ pr ∈ ctx.procs, ∀ q ∈ pr.2, 0 ≤ q) (p stage : ℕ) :
    0 ≤ procTime ctx p stage := by
  unfold procTime procTimes
  rcases getD_mem_or_default ctx.procs p (0, []) with hm | hd
  · rcases getD_mem_or_default (ctx.procs.getD p (0, [])).2 stage 0 with hm2 | hd2
    · exact hn _ hm _ hm2
    · rw [hd2]
  · rw [hd]
    simp

theorem scheduleEv_inv {ctx : SimCtx} {st : SimState} {t : ℚ} {k : EvKind}
    (h : SimInv ctx st) (ht : st.now ≤ t) : SimInv ctx (scheduleEv st t k) := by
  constructor
  · intro e he
    rcases List.mem_append.mp he with h1 | h2
    · exact h.qtimes e h1
    · rcases List.mem_singleton.mp h2 with rfl
      exact ht
  · exact h.logSorted
  · exact h.logLe
  · exact h.logM

theorem requestMachine_inv {ctx : SimCtx} {st : SimState} {stage p : ℕ}
    (h : SimInv ctx st) : SimInv ctx (requestMachine ctx st stage p) := by
  unfold requestMachine
  dsimp only
  split
  · exact scheduleEv_inv ⟨h.qtimes, h.logSorted, h.logLe, h.logM⟩ le_rfl
  · exact ⟨h.qtimes, h.logSorted, h.logLe, h.logM⟩

theorem releaseMachine_inv {ctx : SimCtx} {st : SimState} {stage : ℕ}
    (h : SimInv ctx st) : SimInv ctx (releaseMachine ctx st stage) := by
  unfold releaseMachine
  split
  · exact ⟨h.qtimes, h.logSorted, h.logLe, h.logM⟩
  · exact scheduleEv_inv ⟨h.qtimes, h.logSorted, h.logLe, h.logM⟩ le_rfl

theorem requestMachine_log (ctx : SimCtx) (st : SimState) (stage p : ℕ) :
    (requestMachine ctx st stage p).log = st.log := by
  unfold requestMachine
  dsimp only
  split <;> rfl

theorem releaseMachine_log (ctx : SimCtx) (st : SimState) (stage : ℕ) :
    (releaseMachine ctx st stage).log = st.log := by
  unfold releaseMachine
  split <;> rfl

theorem handle_step_inv {ctx : SimCtx} {st : SimState} {e : SimEvent} {rest : List SimEvent}
    (hn : ∀ pr ∈ ctx.procs, ∀ q ∈ pr.2, 0 ≤ q)
    (h : SimInv ctx st)
    (hpop : popMin st.queue = some (e, rest)) :
    SimInv ctx (handleEv ctx { st with queue := rest } e) := by
  have hmem : e ∈ st.queue := (popMin_perm hpop).mem_iff.mpr (List.mem_cons_self e rest)
  have hnow : st.now ≤ e.time := h.qtimes e hmem
  have hrest : ∀ x ∈ rest, e.time ≤ x.time := fun x hx => evLe_time (popMin_min hpop x hx)
  have h1 : SimInv ctx { st with queue := rest, now := e.time } :=
    ⟨fun x hx => hrest x hx, h.logSorted, fun l hl => (h.logLe l hl).trans hnow, h.logM⟩
  unfold handleEv
  cases e.kind with
  | granted p stage =>
    dsimp only
    refine scheduleEv_inv h1 ?_
    have := procTime_nonneg hn p stage
    linarith
  | finish p stage start =>
    dsimp only
    have h2 : SimInv ctx { st with
        queue := rest
        now := e.time
        log := st.log ++ [mkTaskLog ctx p stage start e.time] } := by
      refine ⟨fun x hx => hrest x hx, ?_, ?_, ?_⟩
      · rw [List.map_append, List.pairwise_append]
        refine ⟨h1.logSorted, by simp, ?_⟩
        intro a ha b hb
        rcases List.mem_map.mp ha with ⟨l, hl, rfl⟩
        rcases List.mem_map.mp hb with ⟨l', hl', rfl⟩
        rcases List.mem_singleton.mp hl' with rfl
        exact (h.logLe l hl).trans hnow
      · intro l hl
        rcases List.mem_append.mp hl with h3 | h3
        · exact (h.logLe l h3).trans hnow
        · rcases List.mem_singleton.mp h3 with rfl
          exact le_rfl
      · intro l hl
        rcases List.mem_append.mp hl with h3 | h3
        · exact h.logM l h3
        · rcases List.mem_singleton.mp h3 with rfl
          exact ⟨rfl, by simp [mkTaskLog]⟩
    split
    · exact requestMachine_inv (releaseMachine_inv h2)
    · exact releaseMachine_inv h2

theorem simLoop_inv {ctx : SimCtx}
    (hn : ∀ pr ∈ ctx.procs, ∀ q ∈ pr.2, 0 ≤ q) :
    ∀ (fuel : ℕ) (st : SimState), SimInv ctx st → SimInv ctx (simLoop ctx fuel st) := by
  intro fuel
  induction fuel with
  | zero => intro st h; exact h
  | succ f ih =>
    intro st h
    rw [simLoop]
    split
    · exact h
    · next e rest hp => exact ih _ (handle_step_inv hn h hp)

theorem foldl_request_inv {ctx : SimCtx} :
    ∀ (l : List ℕ) (st : SimState), SimInv ctx st →
      SimInv ctx (l.foldl
        (fun s p => if 0 < (procTimes ctx p).length then requestMachine ctx s 0 p else s) st) := by
  intro l
  induction l with
  | nil => intro st h; exact h
  | cons x xs ih =>
    intro st h
    rw [List.foldl_cons]
    apply ih
    split
    · exact requestMachine_inv h
    · exact h

theorem initSimState_inv (ctx : SimCtx) : SimInv ctx (initSimState ctx) := by
  unfold initSimState
  dsimp only
  apply foldl_request_inv
  refine ⟨?_, ?_, ?_, ?_⟩ <;> simp

theorem handleEv_logM {ctx : SimCtx} {st : SimState} {e : SimEvent}
    (h : ∀ l ∈ st.log, logMach ctx l) :
    ∀ l ∈ (handleEv ctx st e).log, logMach ctx l := by
  unfold handleEv
  cases e.kind with
  | granted p stage => exact h
  | finish p stage start =>
    dsimp only
    have happ : ∀ l ∈ st.log ++ [mkTaskLog ctx p stage start e.time], logMach ctx l := by
      intro l hl
      rcases List.mem_append.mp hl with h3 | h3
      · exact h l h3
      · rcases List.mem_singleton.mp h3 with rfl
        exact ⟨rfl, by simp [mkTaskLog]⟩
    split
    · rw [requestMachine_log, releaseMachine_log]
      exact happ
    · rw [releaseMachine_log]
      exact happ

theorem simLoop_logM (ctx : SimCtx) : ∀ (fuel : ℕ) (st : SimState),
    (∀ l ∈ st.log, logMach ctx l) → ∀ l ∈ (simLoop ctx fuel st).log, logMach ctx l := by
  intro fuel
  induction fuel with
  | zero => exact fun st h => h
  | succ f ih =>
    intro st h
    rw [simLoop]
    split
    · exact h
    · next e rest hp => exact ih _ (handleEv_logM h)

theorem foldl_request_log {ctx : SimCtx} :
    ∀ (l : List ℕ) (st : SimState),
      (l.foldl (fun s p => if 0 < (procTimes ctx p).length then requestMachine ctx s 0 p else s)
        st).log = st.log := by
  intro l
  induction l with
  | nil => intro st; rfl
  | cons x xs ih =>
    intro st
    rw [List.foldl_cons, ih]
    split
    · exact requestMachine_log ctx st 0 x
    · rfl

theorem initSimState_log (ctx : SimCtx) : (initSimState ctx).log = [] := by
  unfold initSimState
  dsimp only
  rw [foldl_request_log]

theorem mapM_lookupJob_isSome {jobs : List Job} :
    ∀ {perm : List Int}, (∀ id ∈ perm, ∃ j ∈ jobs, j.id = id) →
      ∃ js, perm.mapM (lookupJob jobs) = some js := by
  intro perm
  induction perm with
  | nil => intro _; exact ⟨[], rfl⟩
  | cons a l ih =>
    intro h
    obtain ⟨j, hj, hid⟩ := h a (List.mem_cons_self a l)
    have h1 : (lookupJob jobs a).isSome := by
      unfold lookupJob
      rw [List.find?_isSome]
      exact ⟨j, hj, by simp [hid]⟩
    obtain ⟨jf, hjf⟩ := Option.isSome_iff_exists.mp h1
    obtain ⟨js, hjs⟩ := ih (fun id hid' => h id (List.mem_cons_of_mem a hid'))
    refine ⟨jf :: js, ?_⟩
    rw [← List.mapM'_eq_mapM] at hjs ⊢
    simp [List.mapM', hjf, hjs]

theorem mapM_lookupJob_mem {jobs : List Job} :
    ∀ {perm : List Int} {js : List Job}, perm.mapM (lookupJob jobs) = some js →
      ∀ j ∈ js, j ∈ jobs := by
  intro perm
  induction perm with
  | nil =>
    intro js h j hj
    rw [← List.mapM'_eq_mapM] at h
    simp only [List.mapM', pure, Option.some.injEq] at h
    subst h
    cases hj
  | cons a l ih =>
    intro js h j hj
    rw [← List.mapM'_eq_mapM] at h
    simp only [List.mapM', bind, Option.bind_eq_some, pure, Option.some.injEq] at h
    obtain ⟨x, hx, xs, hxs, rfl⟩ := h
    rcases List.mem_cons.mp hj with rfl | hj'
    · exact List.mem_of_find?_eq_some hx
    · exact ih (by rw [← List.mapM'_eq_mapM]; exact hxs) j hj'

theorem run_simpy_permutation_eq {inst : Instance} {perm : List Int} {r : ScheduleResult}
    (h : run_simpy_simulation inst perm = .ok r) : r.permutation = perm := by
  unfold run_simpy_simulation at h
  cases hm : perm.mapM (lookupJob inst.jobs) with
  | none => rw [hm] at h; cases h
  | some js => rw [hm] at h; injection h with h'; rw [← h']

/-- C6 amended: every TaskLog of every simulation carries the hard-coded
`machineId = 0` and `globalMachineId = sum(machinesPerStage[:stage])`; in
scenario S3 the makespan is 10, the first two jobs start at 0 and the third
at 5 — all logged on machine 0. -/
theorem simpy_machine_id_always_zero :
    (∀ (inst : Instance) (perm : List Int) (r : ScheduleResult),
      run_simpy_simulation inst perm = .ok r →
      ∀ l ∈ r.schedule, l.machineId = 0 ∧
        l.globalMachineId = (inst.machinesPerStage.take l.stageId).sum) ∧
    (run_simpy_simulation S3I [0, 1, 2]).toOption.map (fun r => r.makespan) = some 10 ∧
    (resultSchedule (run_simpy_simulation S3I [0, 1, 2])).map
      (fun l => (l.jobId, l.machineId, l.startTime)) = [(0, 0, 0), (1, 0, 0), (2, 0, 5)] := by
  refine ⟨?_, by decide, by decide⟩
  intro inst perm r hr
  unfold run_simpy_simulation at hr
  cases hm : perm.mapM (lookupJob inst.jobs) with
  | none => rw [hm] at hr; cases hr
  | some js =>
    rw [hm] at hr
    dsimp only at hr
    injection hr with hr'
    subst hr'
    intro l hl
    exact simLoop_logM _ _ _
      (by rw [initSimState_log]; intro x hx; cases hx) l hl

theorem simpy_machine_id_always_zero_witness :
    (⟨0, 0, 0, 0, 0, 1⟩ : TaskLog).machineId = 0 ∧
    (⟨0, 0, 0, 0, 0, 1⟩ : TaskLog).globalMachineId
      = (WTiny.machinesPerStage.take (⟨0, 0, 0, 0, 0, 1⟩ : TaskLog).stageId).sum :=
  simpy_machine_id_always_zero.1 WTiny [0] RTiny (by decide) ⟨0, 0, 0, 0, 0, 1⟩ (by decide)

/-- C8 amended: within one simulation the TaskLogs are emitted in
non-decreasing `endTime` order (each log is appended when its task
completes), for every valid instance and permutation. -/
theorem tasklog_endtime_nondecreasing :
    ∀ (inst : Instance) (perm : List Int) (r : ScheduleResult),
      validInstance inst → run_simpy_simulation inst perm = .ok r →
      List.Pairwise (fun x y => x ≤ y) (r.schedule.map TaskLog.endTime) := by
  intro inst perm r hv hr
  unfold run_simpy_simulation at hr
  cases hm : perm.mapM (lookupJob inst.jobs) with
  | none => rw [hm] at hr; cases hr
  | some js =>
    rw [hm] at hr
    dsimp only at hr
    injection hr with hr'
    subst hr'
    have hjs := mapM_lookupJob_mem hm
    have hn : ∀ pr ∈ (js.map (fun j => (j.id, j.processingTimes))), ∀ q ∈ pr.2, 0 ≤ q := by
      intro pr hpr q hq
      rcases List.mem_map.mp hpr with ⟨j, hj, rfl⟩
      exact (hv.2.2.2.2.2.1 j (hjs j hj)).2 q hq
    exact (simLoop_inv hn _ _ (initSimState_inv _)).logSorted

theorem tasklog_endtime_nondecreasing_witness :
    List.Pairwise (fun x y => x ≤ y) (RTiny.schedule.map TaskLog.endTime) :=
  tasklog_endtime_nondecreasing WTiny [0] RTiny (by decide) (by decide)

/-- C3 amended: the simulator performs no permutation validation — it
returns a result for every permutation whose entries are ids of the
instance's jobs (repeats and omissions included), and echoes the given
permutation; an unresolvable id raises a lookup error.  It performs no
instance validation either (`InvalidI` simulates fine).  The random-search
loop catches and skips simulator errors; on `BadIdsI` every iteration's
error is swallowed and the final fallback's lookup error is what surfaces. -/
theorem simpy_total_without_validation :
    (∀ (inst : Instance) (perm : List Int),
      validInstance inst → (∀ id ∈ perm, ∃ j ∈ inst.jobs, j.id = id) →
      ∃ r, run_simpy_simulation inst perm = .ok r ∧ r.permutation = perm) ∧
    (¬ validInstance InvalidI ∧ (run_simpy_simulation InvalidI [0]).toOption.isSome = true) ∧
    optimize_with_random_search BadIdsI run_simpy_simulation gE = .error "StopIteration" := by
  refine ⟨?_, by decide, by decide⟩
  intro inst perm hv h
  obtain ⟨js, hjs⟩ := mapM_lookupJob_isSome h
  unfold run_simpy_simulation
  rw [hjs]
  exact ⟨_, rfl, rfl⟩

theorem simpy_total_without_validation_witness :
    (run_simpy_simulation TJI [1, 0]).toOption.isSome = true := by
  obtain ⟨r, hr, -⟩ := simpy_total_without_validation.1 TJI [1, 0] (by decide) (by decide)
  rw [hr]
  rfl

/-- C4 amended: every heuristic sorts the jobs stably by its specified key
and direction, but ties break by position in `instance.jobs` (Python's
`sorted` is stable on the list as given), not by ascending `Job.id`; the
simulated result's permutation is exactly the sorted id list. -/
theorem heuristic_sorts_stable_by_list_position :
    (∀ (inst : Instance) (a b : Job), List.Sublist [a, b] inst.jobs →
      sptKey a ≤ sptKey b → List.Sublist [a.id, b.id] (sptPerm inst)) ∧
    (∀ (inst : Instance) (a b : Job), List.Sublist [a, b] inst.jobs →
      sptKey b ≤ sptKey a → List.Sublist [a.id, b.id] (lptPerm inst)) ∧
    (∀ (inst : Instance) (a b : Job), List.Sublist [a, b] inst.jobs →
      firstStageKey a ≤ firstStageKey b → List.Sublist [a.id, b.id] (firstStageSptPerm inst)) ∧
    (∀ (inst : Instance) (a b : Job), List.Sublist [a, b] inst.jobs →
      lastStageKey a ≤ lastStageKey b → List.Sublist [a.id, b.id] (lastStageSptPerm inst)) ∧
    (∀ (inst : Instance) (a b : Job), List.Sublist [a, b] inst.jobs →
      bottleneckKey inst a ≤ bottleneckKey inst b →
      List.Sublist [a.id, b.id] (bottleneckPerm inst)) ∧
    (∀ (inst : Instance) (r : ScheduleResult),
      (heuristic_spt inst = .ok r → r.permutation = sptPerm inst) ∧
      (heuristic_lpt inst = .ok r → r.permutation = lptPerm inst) ∧
      (heuristic_first_stage_spt inst = .ok r → r.permutation = firstStageSptPerm inst) ∧
      (heuristic_last_stage_spt inst = .ok r → r.permutation = lastStageSptPerm inst) ∧
      (heuristic_bottleneck inst = .ok r → r.permutation = bottleneckPerm inst)) := by
  have stab : ∀ (key : Job → ℚ) (l : List Job) (a b : Job), List.Sublist [a, b] l →
      key a ≤ key b → List.Sublist [a.id, b.id] ((pySortedBy key l).map Job.id) := by
    intro key l a b hs hk
    exact List.Sublist.map Job.id
      (List.pair_sublist_insertionSort (r := fun x y => key x ≤ key y) hk hs)
  have stabD : ∀ (key : Job → ℚ) (l : List Job) (a b : Job), List.Sublist [a, b] l →
      key b ≤ key a → List.Sublist [a.id, b.id] ((pySortedByDesc key l).map Job.id) := by
    intro key l a b hs hk
    exact List.Sublist.map Job.id
      (List.pair_sublist_insertionSort (r := fun x y => key y ≤ key x) hk hs)
  refine ⟨fun inst a b hs hk => stab _ _ a b hs hk,
          fun inst a b hs hk => stabD _ _ a b hs hk,
          fun inst a b hs hk => stab _ _ a b hs hk,
          fun inst a b hs hk => stab _ _ a b hs hk,
          fun inst a b hs hk => stab _ _ a b hs hk,
          fun inst r => ⟨fun h => run_simpy_permutation_eq h,
                         fun h => run_simpy_permutation_eq h,
                         fun h => run_simpy_permutation_eq h,
                         fun h => run_simpy_permutation_eq h,
                         fun h => run_simpy_permutation_eq h⟩⟩

theorem heuristic_sorts_stable_witness :
    List.Sublist [(1 : Int), 4] (sptPerm C4W) ∧
    List.Sublist [(1 : Int), 4] (lptPerm C4W) ∧
    List.Sublist [(1 : Int), 4] (firstStageSptPerm C4W) ∧
    List.Sublist [(1 : Int), 4] (lastStageSptPerm C4W) ∧
    List.Sublist [(1 : Int), 4] (bottleneckPerm C4W) ∧
    C4WRes.permutation = sptPerm C4W ∧
    C4WRes.permutation = lptPerm C4W :=
  ⟨heuristic_sorts_stable_by_list_position.1 C4W ⟨1, [2, 3]⟩ ⟨4, [2, 3]⟩ (by decide) (by decide),
   heuristic_sorts_stable_by_list_position.2.1 C4W ⟨1, [2, 3]⟩ ⟨4, [2, 3]⟩ (by decide) (by decide),
   heuristic_sorts_stable_by_list_position.2.2.1 C4W ⟨1, [2, 3]⟩ ⟨4, [2, 3]⟩
     (by decide) (by decide),
   heuristic_sorts_stable_by_list_position.2.2.2.1 C4W ⟨1, [2, 3]⟩ ⟨4, [2, 3]⟩
     (by decide) (by decide),
   heuristic_sorts_stable_by_list_position.2.2.2.2.1 C4W ⟨1, [2, 3]⟩ ⟨4, [2, 3]⟩
     (by decide) (by decide),
   (heuristic_sorts_stable_by_list_position.2.2.2.2.2 C4W C4WRes).1 (by decide),
   (heuristic_sorts_stable_by_list_position.2.2.2.2.2 C4W C4WRes).2.1 (by decide)⟩

/-- C5 amended: the Bayesian decode pairs each `Job.id` with its coordinate
and stable-sorts ascending by the coordinate, with ties broken by position
in the instance's jobs list (not by ascending id); `[0.5, 0.5, 0.5]` with
ids listed `[2, 0, 1]` decodes to `[2, 0, 1]`. -/
theorem bayes_decode_stable_by_jobs_order :
    (∀ (jobs : List Job) (xs : List ℚ) (p q : Int × ℚ),
      List.Sublist [p, q] ((jobs.zip xs).map (fun jx => (jx.1.id, jx.2))) →
      p.2 ≤ q.2 → List.Sublist [p.1, q.1] (decodePerm jobs xs)) ∧
    decodePerm J201 [1/2, 1/2, 1/2] = [2, 0, 1] := by
  refine ⟨?_, by decide⟩
  intro jobs xs p q hs hk
  exact List.Sublist.map (fun it : Int × ℚ => it.1)
    (List.pair_sublist_insertionSort (r := fun x y : Int × ℚ => x.2 ≤ y.2) hk hs)

theorem bayes_decode_stable_witness :
    List.Sublist [(2 : Int), 0] (decodePerm J201 [1/2, 1/2, 1/2]) :=
  bayes_decode_stable_by_jobs_order.1 J201 [1/2, 1/2, 1/2] (2, 1/2) (0, 1/2)
    (by decide) (by decide)
